import Mathlib

/-!
Verification of the ReAct tech-writer agent (C implementation).

Shallow embedding of the core components: the response parser
(`agent_parse_response`), the tool dispatcher (`agent_execute_tool`),
the tools (`read_file`, `find_all_matching_files`,
`gitignore_should_ignore`) and the agent loop (`agent_run`).

C strings are modelled as `List Char`.  The external JSON library
(cJSON) is modelled at the value level: parsing is an abstract
parameter and printing follows cJSON's unformatted printer.  The
operating system (stat, directory walking, file reads) is modelled by
a `Platform` record of oracles.
-/

namespace TechWriter

/-- C `isspace` on the ASCII whitespace characters. -/
def isspace (c : Char) : Bool :=
  c = ' ' || c = '\t' || c = '\n' || c = '\x0b' || c = '\x0c' || c = '\r'

/-- `string_trim` from platform.c: strips leading and trailing whitespace. -/
def string_trim (s : List Char) : List Char :=
  ((s.dropWhile isspace).reverse.dropWhile isspace).reverse

/-- `string_ends_with` from platform.c. -/
def string_ends_with (str suffix : List Char) : Bool :=
  if suffix.length > str.length then false
  else str.drop (str.length - suffix.length) == suffix

/-- C `strstr`: the suffix of `hay` starting at the first occurrence of
`needle`, or `none` when `needle` does not occur. -/
def strstr (needle : List Char) : List Char → Option (List Char)
  | [] => if needle.isPrefixOf ([] : List Char) then some [] else none
  | c :: rest =>
    if needle.isPrefixOf (c :: rest) then some (c :: rest)
    else strstr needle rest

/-- Index form of `strstr`: the index of the first occurrence of `needle`. -/
def strstrIdx (needle : List Char) : List Char → Option Nat
  | [] => if needle.isPrefixOf ([] : List Char) then some 0 else none
  | c :: rest =>
    if needle.isPrefixOf (c :: rest) then some 0
    else (strstrIdx needle rest).map (· + 1)

/-- `ParsedResponse` from agent.h.  In the C source `action` may be left
NULL (never assigned) when no line break follows the tool name; this is
modelled by `Option`. -/
inductive ParsedResponse where
  | final (answer : List Char)
  | action (name : Option (List Char)) (input : List Char)
  | unknown
  deriving DecidableEq, Repr

def finalAnswerMarker : List Char := "Final Answer:".data

def actionMarker : List Char := "Action:".data

def actionInputMarker : List Char := "Action Input:".data

/-- `agent_parse_response` from agent.c. -/
def agent_parse_response (response : List Char) : ParsedResponse :=
  match strstr finalAnswerMarker response with
  | some fromFinal =>
    ParsedResponse.final
      ((fromFinal.drop finalAnswerMarker.length).dropWhile isspace)
  | none =>
    match strstrIdx actionMarker response,
          strstrIdx actionInputMarker response with
    | some actionIdx, some inputIdx =>
      if actionIdx < inputIdx then
        let actionPos :=
          (response.drop (actionIdx + actionMarker.length)).dropWhile isspace
        let name : Option (List Char) :=
          match strstrIdx ['\n'] actionPos with
          | some actionEnd => some (string_trim (actionPos.take actionEnd))
          | none => none
        let inputPos :=
          (response.drop (inputIdx + actionInputMarker.length)).dropWhile isspace
        let inputEnd : Nat :=
          match strstrIdx "\nThought:".data inputPos with
          | some e => e
          | none =>
            match strstrIdx "\nAction:".data inputPos with
            | some e => e
            | none =>
              match strstrIdx "\nObservation:".data inputPos with
              | some e => e
              | none =>
                match strstrIdx "\nFinal Answer:".data inputPos with
                | some e => e
                | none => inputPos.length
        ParsedResponse.action name (string_trim (inputPos.take inputEnd))
      else ParsedResponse.unknown
    | _, _ => ParsedResponse.unknown

/-- Tokens of a path split on `/` or `\` as C `strtok` produces them
(consecutive separators yield no empty tokens). -/
def path_tokens (path : List Char) : List (List Char) :=
  (path.splitOnP (fun c => c = '/' || c = '\\')).filter (fun t => !t.isEmpty)

/-- `gitignore_should_ignore` from tools.c: a path is ignored when some
loaded pattern occurs as a substring, is a suffix of the path, or equals
one of the path's segments. -/
def gitignore_should_ignore (patterns : List (List Char)) (path : List Char) : Bool :=
  patterns.any (fun pattern =>
    (strstr pattern path).isSome ||
    string_ends_with path pattern ||
    (path_tokens path).any (fun tok => tok == pattern))

/-- JSON values, mirroring cJSON's value types. -/
inductive JValue where
  | jnull
  | jbool (b : Bool)
  | jnum (n : Int)
  | jstr (s : List Char)
  | jarr (items : List JValue)
  | jobj (fields : List (List Char × JValue))

def hexDigit (n : Nat) : Char :=
  if n < 10 then Char.ofNat ('0'.toNat + n) else Char.ofNat ('a'.toNat + (n - 10))

/-- cJSON's string escaping (print side). -/
def json_escape_char (c : Char) : List Char :=
  if c = '"' then ['\\', '"']
  else if c = '\\' then ['\\', '\\']
  else if c = '\x08' then ['\\', 'b']
  else if c = '\x0c' then ['\\', 'f']
  else if c = '\n' then ['\\', 'n']
  else if c = '\r' then ['\\', 'r']
  else if c = '\t' then ['\\', 't']
  else if c.toNat < 32 then
    ['\\', 'u', '0', '0', hexDigit (c.toNat / 16), hexDigit (c.toNat % 16)]
  else [c]

def json_print_string (s : List Char) : List Char :=
  '"' :: (s.map json_escape_char).flatten ++ ['"']

/-- cJSON unformatted printing of an object whose values are strings. -/
def json_print_obj (fields : List (List Char × List Char)) : List Char :=
  '{' ::
    (List.intercalate [','] (fields.map
      (fun f => json_print_string f.1 ++ ':' :: json_print_string f.2)))
    ++ ['}']

/-- cJSON unformatted printing of an array of strings. -/
def json_print_string_array (items : List (List Char)) : List Char :=
  '[' :: (List.intercalate [','] (items.map json_print_string)) ++ [']']

/-- The operating-system environment a run executes against: which paths
are directories, what bytes a file holds (`none` when `fopen` fails), and
the file paths `traverse_directory` collects for a root and pattern
(directory walking is an OS side effect, abstracted as an oracle). -/
structure Platform where
  is_directory : List Char → Bool
  file_content : List Char → Option (List Char)
  walk_results : List Char → List Char → List (List Char)

/-- `read_file` from tools.c: soft error objects for a missing file, a
file over the 10 MiB ceiling, or binary (null-byte) content; otherwise
the printed success object. -/
def read_file (file_content : List Char → Option (List Char))
    (file_path : List Char) : List Char :=
  match file_content file_path with
  | none => json_print_obj [("error".data, "File not found".data)]
  | some content =>
    if content.length > 10 * 1024 * 1024 then
      json_print_obj [("error".data, "File too large".data)]
    else if content.contains '\x00' then
      json_print_obj [("error".data, "Cannot read binary file".data)]
    else
      json_print_obj [("file".data, file_path), ("content".data, content)]

/-- `find_all_matching_files` from tools.c: `[]` when the directory does
not exist, otherwise the printed array of collected paths. -/
def find_all_matching_files (pf : Platform)
    (directory pattern : List Char) : List Char :=
  if !pf.is_directory directory then "[]".data
  else json_print_string_array (pf.walk_results directory pattern)

/-- cJSON_GetObjectItem, modelled as first-match field lookup. -/
def cJSON_GetObjectItem (j : JValue) (key : List Char) : Option JValue :=
  match j with
  | JValue.jobj fields =>
    match fields.find? (fun f => f.1 == key) with
    | some f => some f.2
    | none => none
  | _ => none

/-- Modelled from the spec: `read_file_content`, the function the
dispatcher calls for the `read_file` tool, is not among the provided
sources (only `read_file` in tools.c is); per the spec's §4.3 contract
for `read_file` we model it as that tool. -/
def read_file_content (pf : Platform) (file_path : List Char) : List Char :=
  read_file pf.file_content file_path

def parse_input_json_error : List Char :=
  "\x7b\"error\": \"Failed to parse input JSON\"\x7d".data

/-- The `snprintf` into a 256-byte buffer truncates at 255 characters. -/
def unknown_tool_error (tool_name : List Char) : List Char :=
  ("\x7b\"error\": \"Unknown tool: ".data ++ tool_name ++ "\"\x7d".data).take 255

/-- `agent_execute_tool` from agent.c.  `cJSON_Parse` is the external
JSON library's parser, taken as a parameter (the spec treats JSON
parsing as an assumed external capability). -/
def agent_execute_tool (pf : Platform) (cJSON_Parse : List Char → Option JValue)
    (tool_name action_input : List Char) : List Char :=
  match cJSON_Parse action_input with
  | none => parse_input_json_error
  | some input =>
    if tool_name == "find_all_matching_files".data then
      let dir_str : List Char :=
        match cJSON_GetObjectItem input "directory".data with
        | some (JValue.jstr s) => s
        | _ => []
      let pat_str : List Char :=
        match cJSON_GetObjectItem input "pattern".data with
        | some (JValue.jstr s) => s
        | _ => "*".data
      find_all_matching_files pf dir_str pat_str
    else if tool_name == "read_file".data then
      match cJSON_GetObjectItem input "file_path".data with
      | some (JValue.jstr s) => read_file_content pf s
      | _ => "\x7b\"error\": \"file_path parameter required\"\x7d".data
    else unknown_tool_error tool_name

/-- `MAX_STEPS` from agent.h. -/
def MAX_STEPS : Nat := 50

/-- The fixed fallback answer of `agent_run`. -/
def fallback_answer : List Char := "Failed to complete analysis".data

/-- A conversation message (role plus content), as in agent.h. -/
structure Msg where
  role : List Char
  content : List Char
  deriving DecidableEq, Repr

/-- `REACT_SYSTEM_PROMPT` from agent.c. -/
def REACT_SYSTEM_PROMPT : List Char :=
  ("You are a technical documentation assistant that analyses codebases and generates comprehensive documentation.\n"
  ++ "\n"
  ++ "When given a directory path and a specific analysis request, you will:\n"
  ++ "1. Explore the codebase structure to understand its organization\n"
  ++ "2. Read relevant files to comprehend the implementation details\n"
  ++ "3. Generate detailed technical documentation based on your analysis\n"
  ++ "\n"
  ++ "You have access to tools that help you explore and understand codebases:\n"
  ++ "- find_all_matching_files: Find files matching patterns in directories\n"
  ++ "- read_file: Read the contents of specific files\n"
  ++ "\n"
  ++ "Important guidelines:\n"
  ++ "- Always start by exploring the directory structure to understand the codebase layout\n"
  ++ "- Read files strategically based on the documentation needs\n"
  ++ "- Pay attention to configuration files, main entry points, and key modules\n"
  ++ "- Generate clear, well-structured documentation that would help developers understand the codebase\n"
  ++ "\n"
  ++ "Use the following format:\n"
  ++ "\n"
  ++ "Thought: I need to [describe what you need to do next]\n"
  ++ "Action: [tool_name]\n"
  ++ "Action Input: \x7b\"param1\": \"value1\", \"param2\": \"value2\"\x7d\n"
  ++ "Observation: [tool output will be provided here]\n"
  ++ "... (repeat Thought/Action/Action Input/Observation as needed)\n"
  ++ "Thought: I now have enough information to generate the documentation\n"
  ++ "Final Answer: [Your complete technical documentation]\n"
  ++ "\n"
  ++ "Begin your analysis now.").data

/-- The user message seeded at the start of a run; the `snprintf` into a
2048-byte buffer truncates at 2047 characters. -/
def user_prompt (prompt directory : List Char) : List Char :=
  ("Base directory for analysis: ".data ++ directory
    ++ "\n\n".data ++ prompt).take 2047

/-- The two messages `agent_run` appends before the loop starts. -/
def seed_memory (prompt directory : List Char) : List Msg :=
  [Msg.mk "system".data REACT_SYSTEM_PROMPT,
   Msg.mk "user".data (user_prompt prompt directory)]

/-- The observation message appended after a tool call: role user,
content `Observation: ` followed by the tool result. -/
def observation_message (observation : List Char) : Msg :=
  Msg.mk "user".data ("Observation: ".data ++ observation)

/-- The ReAct loop of `agent_run`.  `llm` is the external model
collaborator, scripted per step index (`none` is a failed call);
`exec` is the tool dispatch applied to the parsed tool name (which the
parser may leave NULL, hence `Option`) and argument payload.  Returns
the final answer (if one was produced), the conversation memory, and
the number of loop iterations executed. -/
def run_steps (llm : Nat → Option (List Char))
    (exec : Option (List Char) → List Char → List Char) :
    Nat → Nat → List Msg → Option (List Char) × List Msg × Nat
  | 0, step, memory => (none, memory, step)
  | fuel + 1, step, memory =>
    match llm step with
    | none => (none, memory, step)
    | some response =>
      let memory' := memory ++ [Msg.mk "assistant".data response]
      match agent_parse_response response with
      | ParsedResponse.final ans => (some ans, memory', step + 1)
      | ParsedResponse.action name input =>
        run_steps llm exec fuel (step + 1)
          (memory' ++ [observation_message (exec name input)])
      | ParsedResponse.unknown => run_steps llm exec fuel (step + 1) memory'

/-- Result of a run: the returned answer, whether a final answer was
produced (the spec's DONE state; `false` is FAILED), the conversation
memory, and how many loop iterations ran. -/
structure RunResult where
  answer : List Char
  done : Bool
  memory : List Msg
  steps : Nat
  deriving DecidableEq, Repr

/-- `agent_run` from agent.c: seed memory, run at most `MAX_STEPS`
iterations, fall back to the fixed failure string if no final answer
was produced. -/
def agent_run (llm : Nat → Option (List Char))
    (exec : Option (List Char) → List Char → List Char)
    (prompt directory : List Char) : RunResult :=
  let r := run_steps llm exec MAX_STEPS 0 (seed_memory prompt directory)
  match r.1 with
  | some ans => RunResult.mk ans true r.2.1 r.2.2
  | none => RunResult.mk fallback_answer false r.2.1 r.2.2

/-- The payload as the spec's words describe it: the text following the
first occurrence of the `Final Answer:` marker, whitespace-trimmed (on
both sides, as `string_trim` trims).  Written from the spec for
comparison with what `agent_parse_response` actually produces. -/
def final_answer_payload_spec (response : List Char) : Option (List Char) :=
  (strstr finalAnswerMarker response).map
    (fun s => string_trim (s.drop finalAnswerMarker.length))

/-- A JSON value without a string field named `key`: looking the key up
yields nothing or a non-string. -/
def lacks_string_field (j : JValue) (key : List Char) : Prop :=
  ∀ v, cJSON_GetObjectItem j key = some v → ∀ s, v ≠ JValue.jstr s

/-- A platform on which nothing exists; used to instantiate theorems at
concrete inputs. -/
def trivial_platform : Platform :=
  Platform.mk (fun _ => false) (fun _ => none) (fun _ _ => [])

/-- A JSON parser that rejects every payload. -/
def parse_none : List Char → Option JValue := fun _ => none

/-- A JSON parser accepting exactly the empty-object payload. -/
def parse_empty_obj : List Char → Option JValue :=
  fun s => if s = "\x7b\x7d".data then some (JValue.jobj []) else none

/-- A scripted model collaborator that never follows the protocol. -/
def unknown_llm : Nat → Option (List Char) := fun _ => some "no idea".data

/-- A tool executor returning the empty result. -/
def null_exec : Option (List Char) → List Char → List Char := fun _ _ => []

def c3_completion1 : List Char :=
  "Action: find_all_matching_files\nAction Input: \x7b\"directory\": \"src\"\x7d".data

def c3_completion2 : List Char :=
  "Action: read_file\nAction Input: \x7b\"file_path\": \"a.c\"\x7d".data

def c3_completion3 : List Char := "Final Answer: done".data

/-- The three-completion script of the end-to-end scenario. -/
def c3_llm : Nat → Option (List Char) :=
  fun n =>
    if n = 0 then some c3_completion1
    else if n = 1 then some c3_completion2
    else if n = 2 then some c3_completion3
    else none

/-- A file of exactly the 10 MiB ceiling. -/
def big_file_content : List Char := List.replicate (10 * 1024 * 1024) 'a'

/-- A file one byte over the 10 MiB ceiling. -/
def huge_file_content : List Char := List.replicate (10 * 1024 * 1024 + 1) 'a'

/-- A filesystem with a file at the ceiling, one over it, and a binary one. -/
def c6_fs : List Char → Option (List Char) :=
  fun p =>
    if p = "big.txt".data then some big_file_content
    else if p = "huge.txt".data then some huge_file_content
    else if p = "bin.dat".data then some ['\x00']
    else none

/-! ### Characterizations of the search primitives -/

theorem strstrIdx_eq_some_iff (needle hay : List Char) (i : Nat) :
    strstrIdx needle hay = some i ↔
      (needle <+: hay.drop i ∧ ∀ j, j < i → ¬ needle <+: hay.drop j) := by
  induction hay generalizing i with
  | nil =>
    cases hb : needle.isPrefixOf ([] : List Char) with
    | false =>
      have hnp : ¬ needle <+: ([] : List Char) := by
        rw [← List.isPrefixOf_iff_prefix, hb]; simp
      simp [strstrIdx, hb, hnp]
    | true =>
      have hp : needle <+: ([] : List Char) := by
        rw [← List.isPrefixOf_iff_prefix, hb]
      simp only [strstrIdx, hb, if_true, List.drop_nil]
      constructor
      · intro h
        obtain rfl : i = 0 := by injection h with h'; omega
        exact ⟨hp, by omega⟩
      · rintro ⟨h1, h2⟩
        rcases Nat.eq_zero_or_pos i with rfl | hpos
        · rfl
        · exact absurd hp (h2 0 hpos)
  | cons c rest ih =>
    cases hb : needle.isPrefixOf (c :: rest) with
    | true =>
      have hp : needle <+: (c :: rest) := by
        rw [← List.isPrefixOf_iff_prefix, hb]
      simp only [strstrIdx, hb, if_true]
      constructor
      · intro h
        obtain rfl : i = 0 := by injection h with h'; omega
        exact ⟨by simpa using hp, by omega⟩
      · rintro ⟨h1, h2⟩
        rcases Nat.eq_zero_or_pos i with rfl | hpos
        · rfl
        · exact absurd (by simpa using hp) (h2 0 hpos)
    | false =>
      have hnp : ¬ needle <+: (c :: rest) := by
        rw [← List.isPrefixOf_iff_prefix, hb]; simp
      simp only [strstrIdx, hb, Bool.false_eq_true, if_false]
      constructor
      · intro h
        rcases Option.map_eq_some'.mp h with ⟨k, hk, rfl⟩
        rcases (ih k).mp hk with ⟨h1, h2⟩
        refine ⟨by simpa using h1, ?_⟩
        intro j hj
        cases j with
        | zero => simpa using hnp
        | succ j' => simpa using h2 j' (by omega)
      · rintro ⟨h1, h2⟩
        cases i with
        | zero => exact absurd (by simpa using h1) hnp
        | succ i' =>
          have hk : strstrIdx needle rest = some i' := by
            apply (ih i').mpr
            refine ⟨by simpa using h1, ?_⟩
            intro j hj
            have := h2 (j + 1) (by omega)
            simpa using this
          simp [hk]

theorem strstrIdx_eq_none_iff (needle hay : List Char) :
    strstrIdx needle hay = none ↔ ∀ j, ¬ needle <+: hay.drop j := by
  induction hay with
  | nil =>
    cases hb : needle.isPrefixOf ([] : List Char) with
    | false =>
      have hnp : ¬ needle <+: ([] : List Char) := by
        rw [← List.isPrefixOf_iff_prefix, hb]; simp
      simp [strstrIdx, hb, hnp]
    | true =>
      have hp : needle <+: ([] : List Char) := by
        rw [← List.isPrefixOf_iff_prefix, hb]
      simp only [strstrIdx, hb, if_true]
      constructor
      · intro h; cases h
      · intro h; exact absurd (by simpa using hp) (h 0)
  | cons c rest ih =>
    cases hb : needle.isPrefixOf (c :: rest) with
    | true =>
      have hp : needle <+: (c :: rest) := by
        rw [← List.isPrefixOf_iff_prefix, hb]
      simp only [strstrIdx, hb, if_true]
      constructor
      · intro h; cases h
      · intro h; exact absurd (by simpa using hp) (h 0)
    | false =>
      have hnp : ¬ needle <+: (c :: rest) := by
        rw [← List.isPrefixOf_iff_prefix, hb]; simp
      simp only [strstrIdx, hb, Bool.false_eq_true, if_false, Option.map_eq_none']
      rw [ih]
      constructor
      · intro h j
        cases j with
        | zero => simpa using hnp
        | succ j' => simpa using h j'
      · intro h j
        have := h (j + 1)
        simpa using this

theorem strstr_eq_strstrIdx (needle hay : List Char) :
    strstr needle hay = (strstrIdx needle hay).map (fun i => hay.drop i) := by
  induction hay with
  | nil =>
    cases hb : needle.isPrefixOf ([] : List Char) <;> simp [strstr, strstrIdx, hb]
  | cons c rest ih =>
    cases hb : needle.isPrefixOf (c :: rest) with
    | true => simp [strstr, strstrIdx, hb]
    | false =>
      simp only [strstr, strstrIdx, hb, Bool.false_eq_true, if_false, ih,
        Option.map_map]
      rcases strstrIdx needle rest with _ | k <;> simp

theorem infix_iff_exists_prefix_drop (needle hay : List Char) :
    needle <:+: hay ↔ ∃ i, needle <+: hay.drop i := by
  constructor
  · rintro ⟨s, t, rfl⟩
    refine ⟨s.length, ?_⟩
    rw [List.append_assoc, List.drop_left]
    exact List.prefix_append _ _
  · rintro ⟨i, t, ht⟩
    refine ⟨hay.take i, t, ?_⟩
    rw [List.append_assoc, ht, List.take_append_drop]

theorem strstr_eq_none_iff (needle hay : List Char) :
    strstr needle hay = none ↔ ¬ needle <:+: hay := by
  rw [strstr_eq_strstrIdx, Option.map_eq_none', strstrIdx_eq_none_iff,
    infix_iff_exists_prefix_drop]
  push_neg
  rfl

theorem strstr_isSome_iff (needle hay : List Char) :
    (strstr needle hay).isSome = true ↔ needle <:+: hay := by
  rw [Option.isSome_iff_ne_none, ne_eq, strstr_eq_none_iff, not_not]

theorem string_ends_with_iff (str suffix : List Char) :
    string_ends_with str suffix = true ↔ suffix <:+ str := by
  rw [string_ends_with]
  by_cases h : suffix.length > str.length
  · rw [if_pos h]
    simp only [Bool.false_eq_true, false_iff]
    intro hsuf
    exact absurd hsuf.length_le (by omega)
  · rw [if_neg h, beq_iff_eq, List.suffix_iff_eq_drop, eq_comm]

/-! ### Claim theorems -/

/-- C1 counterexample: on the completion `Final Answer: hi ` (trailing
space) the parser keeps the trailing whitespace of the payload — it only
strips leading whitespace — so the payload is not the whitespace-trimmed
text the claim describes. -/
theorem C1_counterexample :
    agent_parse_response "Final Answer: hi ".data = ParsedResponse.final "hi ".data
    ∧ final_answer_payload_spec "Final Answer: hi ".data = some "hi".data
    ∧ "hi ".data ≠ "hi".data := by decide

/-- C1 (amended): whenever `Final Answer:` occurs in the completion —
`pre` being the text before its first occurrence — the parser returns
the FinalAnswer outcome (never ToolCall or Unrecognized), regardless of
any `Action:`/`Action Input:` text appearing earlier, and the payload is
the text following that first occurrence with leading whitespace
trimmed. -/
theorem C1_final_answer_wins (response pre suf : List Char)
    (hsplit : response = pre ++ finalAnswerMarker ++ suf)
    (hfirst : ∀ j, j < pre.length → ¬ finalAnswerMarker <+: response.drop j) :
    agent_parse_response response = ParsedResponse.final (suf.dropWhile isspace) := by
  have hidx : strstrIdx finalAnswerMarker response = some pre.length := by
    rw [strstrIdx_eq_some_iff]
    refine ⟨?_, hfirst⟩
    rw [hsplit, List.append_assoc, List.drop_left]
    exact List.prefix_append _ _
  have hs : strstr finalAnswerMarker response = some (finalAnswerMarker ++ suf) := by
    rw [strstr_eq_strstrIdx, hidx, Option.map_some', hsplit, List.append_assoc,
      List.drop_left]
  simp [agent_parse_response, hs, List.drop_left]

theorem C1_witness :
    agent_parse_response "Action: a\nAction Input: b\nFinal Answer:  ok".data
      = ParsedResponse.final ("  ok".data.dropWhile isspace) :=
  C1_final_answer_wins "Action: a\nAction Input: b\nFinal Answer:  ok".data
    "Action: a\nAction Input: b\n".data "  ok".data (by decide) (by decide)

/-- C4: on a completion where `Action:` and `Action Input:` both occur
in order but no line break follows the `Action:` marker, the parser
still reports a tool call but leaves the tool name NULL (modelled
`none`): the `action` field is never assigned.  `agent_run` then passes
this NULL pointer to `agent_execute_tool`, which applies `strcmp` to it
— undefined behavior (a crash) in the C source, not the well-defined
unknown-tool error path the claim requires. -/
theorem C4_null_tool_name :
    agent_parse_response
        "Action: find_all_matching_files Action Input: \x7b\x7d".data
      = ParsedResponse.action none "\x7b\x7d".data := by decide

/-- C5: without a `Final Answer:` marker, when the first occurrence of
`Action Input:` (at index `i`) comes before the first occurrence of
`Action:` (at index `a`), the parser returns Unrecognized, which carries
no tool name and no argument payload. -/
theorem C5_reversed_markers (response : List Char) (a i : Nat)
    (hNoFinal : ¬ finalAnswerMarker <:+: response)
    (hA : actionMarker <+: response.drop a)
    (hAfirst : ∀ j, j < a → ¬ actionMarker <+: response.drop j)
    (hI : actionInputMarker <+: response.drop i)
    (hIfirst : ∀ j, j < i → ¬ actionInputMarker <+: response.drop j)
    (hOrder : i < a) :
    agent_parse_response response = ParsedResponse.unknown := by
  have hF : strstr finalAnswerMarker response = none :=
    (strstr_eq_none_iff _ _).mpr hNoFinal
  have hAi : strstrIdx actionMarker response = some a :=
    (strstrIdx_eq_some_iff _ _ _).mpr ⟨hA, hAfirst⟩
  have hIi : strstrIdx actionInputMarker response = some i :=
    (strstrIdx_eq_some_iff _ _ _).mpr ⟨hI, hIfirst⟩
  have hlt : ¬ a < i := by omega
  simp [agent_parse_response, hF, hAi, hIi, hlt]

theorem C5_witness :
    agent_parse_response "Action Input: x\nAction: y".data = ParsedResponse.unknown :=
  C5_reversed_markers "Action Input: x\nAction: y".data 16 0
    (by decide) (by decide) (by decide) (by decide) (by decide) (by decide)

theorem run_steps_all_unknown (llm : Nat → Option (List Char))
    (exec : Option (List Char) → List Char → List Char)
    (h : ∀ n, ∃ s, llm n = some s ∧ agent_parse_response s = ParsedResponse.unknown) :
    ∀ (fuel step : Nat) (memory : List Msg),
      run_steps llm exec fuel step memory =
        (none,
         memory ++ (List.range' step fuel).map
           (fun n => Msg.mk "assistant".data ((llm n).getD [])),
         step + fuel) := by
  intro fuel
  induction fuel with
  | zero => intro step memory; simp [run_steps]
  | succ f ih =>
    intro step memory
    rcases h step with ⟨s, hs, hp⟩
    rw [show List.range' step (f + 1) = step :: List.range' (step + 1) f from
      List.range'_succ step f 1]
    simp only [run_steps, hs, hp]
    rw [ih (step + 1) (memory ++ [Msg.mk "assistant".data s])]
    simp [hs, List.append_assoc]
    omega

/-- C2: when every completion of the scripted model collaborator parses
as Unrecognized, `agent_run` ends in the failed state (`done = false`)
with the fixed fallback string after exactly `MAX_STEPS` (50) loop
iterations, and the only messages ever added to memory are the 50
assistant completions — no observation message is appended. -/
theorem C2_step_budget_exhaustion (llm : Nat → Option (List Char))
    (exec : Option (List Char) → List Char → List Char)
    (prompt directory : List Char)
    (h : ∀ n, ∃ s, llm n = some s ∧ agent_parse_response s = ParsedResponse.unknown) :
    agent_run llm exec prompt directory =
      RunResult.mk fallback_answer false
        (seed_memory prompt directory ++
          (List.range MAX_STEPS).map
            (fun n => Msg.mk "assistant".data ((llm n).getD [])))
        MAX_STEPS
    ∧ ∀ m ∈ (agent_run llm exec prompt directory).memory.drop 2,
        m.role = "assistant".data := by
  have hrun := run_steps_all_unknown llm exec h MAX_STEPS 0 (seed_memory prompt directory)
  have hmain : agent_run llm exec prompt directory =
      RunResult.mk fallback_answer false
        (seed_memory prompt directory ++
          (List.range MAX_STEPS).map
            (fun n => Msg.mk "assistant".data ((llm n).getD [])))
        MAX_STEPS := by
    simp [agent_run, hrun, List.range_eq_range']
  refine ⟨hmain, ?_⟩
  intro m hm
  rw [hmain] at hm
  simp only [seed_memory, RunResult.mk.injEq, List.cons_append, List.nil_append,
    List.drop_succ_cons, List.drop_zero] at hm
  rcases List.mem_map.mp hm with ⟨n, _, rfl⟩
  rfl

theorem C2_witness :
    agent_run unknown_llm null_exec [] [] =
      RunResult.mk fallback_answer false
        (seed_memory [] [] ++
          (List.range MAX_STEPS).map
            (fun n => Msg.mk "assistant".data ((unknown_llm n).getD [])))
        MAX_STEPS
    ∧ ∀ m ∈ (agent_run unknown_llm null_exec [] []).memory.drop 2,
        m.role = "assistant".data :=
  C2_step_budget_exhaustion unknown_llm null_exec [] []
    (fun _ => ⟨"no idea".data, rfl, by decide⟩)

theorem run_steps_action_step (llm : Nat → Option (List Char))
    (exec : Option (List Char) → List Char → List Char)
    (fuel step : Nat) (memory : List Msg)
    (s : List Char) (name : Option (List Char)) (input : List Char)
    (hllm : llm step = some s)
    (hp : agent_parse_response s = ParsedResponse.action name input) :
    run_steps llm exec (fuel + 1) step memory =
      run_steps llm exec fuel (step + 1)
        (memory ++ [Msg.mk "assistant".data s,
                    observation_message (exec name input)]) := by
  simp [run_steps, hllm, hp, List.append_assoc]

theorem run_steps_final_step (llm : Nat → Option (List Char))
    (exec : Option (List Char) → List Char → List Char)
    (fuel step : Nat) (memory : List Msg) (s ans : List Char)
    (hllm : llm step = some s)
    (hp : agent_parse_response s = ParsedResponse.final ans) :
    run_steps llm exec (fuel + 1) step memory =
      (some ans, memory ++ [Msg.mk "assistant".data s], step + 1) := by
  simp [run_steps, hllm, hp]

/-- C3: on a script whose first completion parses as a
`find_all_matching_files` call, second as a `read_file` call and third
as a final answer, `agent_run` ends in the done state after exactly 3
iterations, returns the final-answer text, and memory is the seed plus
exactly five messages: each assistant completion immediately followed by
its observation message (role user, content prefixed `Observation: `)
for the two tool calls, in script order. -/
theorem C3_scripted_three_step_run (llm : Nat → Option (List Char))
    (exec : Option (List Char) → List Char → List Char)
    (prompt directory s1 s2 s3 i1 i2 ans : List Char)
    (h0 : llm 0 = some s1) (h1 : llm 1 = some s2) (h2 : llm 2 = some s3)
    (p1 : agent_parse_response s1 =
      ParsedResponse.action (some "find_all_matching_files".data) i1)
    (p2 : agent_parse_response s2 =
      ParsedResponse.action (some "read_file".data) i2)
    (p3 : agent_parse_response s3 = ParsedResponse.final ans) :
    agent_run llm exec prompt directory =
      RunResult.mk ans true
        (seed_memory prompt directory ++
          [Msg.mk "assistant".data s1,
           observation_message (exec (some "find_all_matching_files".data) i1),
           Msg.mk "assistant".data s2,
           observation_message (exec (some "read_file".data) i2),
           Msg.mk "assistant".data s3]) 3 := by
  have hrs : run_steps llm exec MAX_STEPS 0 (seed_memory prompt directory) =
      (some ans,
       seed_memory prompt directory ++
         [Msg.mk "assistant".data s1,
          observation_message (exec (some "find_all_matching_files".data) i1),
          Msg.mk "assistant".data s2,
          observation_message (exec (some "read_file".data) i2),
          Msg.mk "assistant".data s3], 3) := by
    rw [show MAX_STEPS = 49 + 1 from rfl,
      run_steps_action_step llm exec 49 0 _ s1 _ i1 h0 p1,
      show (49 : Nat) = 48 + 1 from rfl,
      run_steps_action_step llm exec 48 (0 + 1) _ s2 _ i2 (by simpa using h1) p2,
      show (48 : Nat) = 47 + 1 from rfl,
      run_steps_final_step llm exec 47 (0 + 1 + 1) _ s3 ans (by simpa using h2) p3]
    simp [List.append_assoc]
  simp [agent_run, hrs]

theorem C3_witness :
    agent_run c3_llm null_exec [] [] =
      RunResult.mk "done".data true
        (seed_memory [] [] ++
          [Msg.mk "assistant".data c3_completion1,
           observation_message [],
           Msg.mk "assistant".data c3_completion2,
           observation_message [],
           Msg.mk "assistant".data c3_completion3]) 3 :=
  C3_scripted_three_step_run c3_llm null_exec [] []
    c3_completion1 c3_completion2 c3_completion3
    "\x7b\"directory\": \"src\"\x7d".data "\x7b\"file_path\": \"a.c\"\x7d".data
    "done".data rfl rfl rfl (by decide) (by decide) (by decide)

/-- C6: for a readable file, `read_file` succeeds with the
`(file, content)` object at exactly the 10 MiB ceiling when the content
has no null byte, returns the oversize error object one byte over the
ceiling, and returns the binary-content error object whenever a file
within the ceiling contains a null byte; every case is a returned value,
never a raised fault. -/
theorem C6_read_file_limits (fc : List Char → Option (List Char))
    (path content : List Char) (h : fc path = some content) :
    (content.length = 10 * 1024 * 1024 → content.contains '\x00' = false →
      read_file fc path =
        json_print_obj [("file".data, path), ("content".data, content)]) ∧
    (content.length = 10 * 1024 * 1024 + 1 →
      read_file fc path = json_print_obj [("error".data, "File too large".data)]) ∧
    (content.length ≤ 10 * 1024 * 1024 → content.contains '\x00' = true →
      read_file fc path =
        json_print_obj [("error".data, "Cannot read binary file".data)]) := by
  refine ⟨fun h1 h2 => ?_, fun h1 => ?_, fun h1 h2 => ?_⟩
  · simp only [read_file, h]
    rw [if_neg (by omega), if_neg (by rw [h2]; simp)]
  · simp only [read_file, h]
    rw [if_pos (by omega)]
  · simp only [read_file, h]
    rw [if_neg (by omega), if_pos h2]

theorem C6_witness :
    read_file c6_fs "big.txt".data =
      json_print_obj [("file".data, "big.txt".data), ("content".data, big_file_content)] ∧
    read_file c6_fs "huge.txt".data =
      json_print_obj [("error".data, "File too large".data)] ∧
    read_file c6_fs "bin.dat".data =
      json_print_obj [("error".data, "Cannot read binary file".data)] :=
  ⟨(C6_read_file_limits c6_fs "big.txt".data big_file_content rfl).1
      (by rw [big_file_content, List.length_replicate])
      (by
        rw [Bool.eq_false_iff]
        intro hc
        have hm : '\x00' ∈ big_file_content := List.elem_iff.mp hc
        rw [big_file_content, List.mem_replicate] at hm
        exact absurd hm.2 (by decide)),
   (C6_read_file_limits c6_fs "huge.txt".data huge_file_content rfl).2.1
      (by rw [huge_file_content, List.length_replicate]),
   (C6_read_file_limits c6_fs "bin.dat".data ['\x00'] rfl).2.2
      (by simp) (by decide)⟩

/-- C7: for every tool name and every argument payload the JSON library
rejects, `agent_execute_tool` returns exactly the string
`\x7b"error": "Failed to parse input JSON"\x7d` as its value — the
failure is a returned observation, never a propagated fault. -/
theorem C7_bad_json_payload (pf : Platform)
    (cJSON_Parse : List Char → Option JValue)
    (tool_name action_input : List Char)
    (h : cJSON_Parse action_input = none) :
    agent_execute_tool pf cJSON_Parse tool_name action_input =
      "\x7b\"error\": \"Failed to parse input JSON\"\x7d".data := by
  simp [agent_execute_tool, h, parse_input_json_error]

theorem C7_witness :
    agent_execute_tool trivial_platform parse_none "read_file".data "not json".data =
      "\x7b\"error\": \"Failed to parse input JSON\"\x7d".data :=
  C7_bad_json_payload trivial_platform parse_none "read_file".data "not json".data rfl

/-- C8: `gitignore_should_ignore` holds exactly when some loaded pattern
passes one of the three tests — substring of the path, suffix of the
path, or exact equality with a `/`-or-`\`-delimited path segment; with
the single pattern `node_modules`, `src/node_modules/a.js` is ignored
and `src/other/a.js` is not. -/
theorem C8_should_ignore_semantics :
    (∀ (patterns : List (List Char)) (path : List Char),
      gitignore_should_ignore patterns path = true ↔
        ∃ pattern ∈ patterns,
          pattern <:+: path ∨ pattern <:+ path ∨
            ∃ seg ∈ path_tokens path, seg = pattern) ∧
    gitignore_should_ignore ["node_modules".data] "src/node_modules/a.js".data = true ∧
    gitignore_should_ignore ["node_modules".data] "src/other/a.js".data = false := by
  refine ⟨?_, by decide, by decide⟩
  intro patterns path
  simp only [gitignore_should_ignore, List.any_eq_true, Bool.or_eq_true,
    strstr_isSome_iff, string_ends_with_iff, beq_iff_eq, or_assoc]

/-- C9: whenever the directory argument does not name an existing
directory, `find_all_matching_files` returns exactly the JSON array text
`[]` as a value — no error or exception path exists. -/
theorem C9_missing_directory (pf : Platform) (directory pattern : List Char)
    (h : pf.is_directory directory = false) :
    find_all_matching_files pf directory pattern = "[]".data := by
  simp [find_all_matching_files, h]

theorem C9_witness :
    find_all_matching_files trivial_platform "/no/such/dir".data "*".data = "[]".data :=
  C9_missing_directory trivial_platform "/no/such/dir".data "*".data rfl

/-- C10: for a payload that parses as JSON but has no string `pattern`
field, the dispatcher invokes `find_all_matching_files` with the default
pattern `*`; for one with no string `directory` field, it invokes the
tool with the empty string as directory, which (the empty path naming no
directory) yields `[]` — not a missing-field error. -/
theorem C10_default_tool_arguments (pf : Platform)
    (cJSON_Parse : List Char → Option JValue) (payload : List Char) (j : JValue)
    (hp : cJSON_Parse payload = some j) :
    (lacks_string_field j "pattern".data →
      ∃ d, agent_execute_tool pf cJSON_Parse "find_all_matching_files".data payload
        = find_all_matching_files pf d "*".data) ∧
    (lacks_string_field j "directory".data → pf.is_directory [] = false →
      agent_execute_tool pf cJSON_Parse "find_all_matching_files".data payload
        = "[]".data) := by
  constructor
  · intro hl
    have hpat : (match cJSON_GetObjectItem j "pattern".data with
        | some (JValue.jstr s) => s
        | _ => "*".data) = "*".data := by
      rcases hg : cJSON_GetObjectItem j "pattern".data with _ | v
      · rfl
      · cases v with
        | jstr s => exact absurd rfl (hl _ hg s)
        | jnull => rfl
        | jbool b => rfl
        | jnum n => rfl
        | jarr items => rfl
        | jobj fields => rfl
    refine ⟨(match cJSON_GetObjectItem j "directory".data with
      | some (JValue.jstr s) => s
      | _ => ([] : List Char)), ?_⟩
    simp only [agent_execute_tool, hp, beq_self_eq_true, if_true, hpat]
  · intro hl hdir
    have hd : (match cJSON_GetObjectItem j "directory".data with
        | some (JValue.jstr s) => s
        | _ => ([] : List Char)) = [] := by
      rcases hg : cJSON_GetObjectItem j "directory".data with _ | v
      · rfl
      · cases v with
        | jstr s => exact absurd rfl (hl _ hg s)
        | jnull => rfl
        | jbool b => rfl
        | jnum n => rfl
        | jarr items => rfl
        | jobj fields => rfl
    simp only [agent_execute_tool, hp, beq_self_eq_true, if_true, hd]
    simp [find_all_matching_files, hdir]

theorem C10_witness :
    agent_execute_tool trivial_platform parse_empty_obj
      "find_all_matching_files".data "\x7b\x7d".data = "[]".data :=
  (C10_default_tool_arguments trivial_platform parse_empty_obj
      "\x7b\x7d".data (JValue.jobj []) rfl).2
    (fun v hv => absurd hv (by simp [cJSON_GetObjectItem])) rfl

end TechWriter
